import Mathlib

/-!
# ots-secret-generator: a shallow embedding of `main.go`

The program generates random passwords and registers each one with a remote
one-time-secret service.  The embedding below follows `main.go` function by
function:

* `ConfigurationFile`, `ConfigurationFile.isInValid`
* `lowerCharSet` … `allCharSet`, `generatePassword`
* `ConfigurationFile.makeSecrets`, `endpointReachable`
* `main` (from the validation of the decoded configuration onwards)

Go `int` values are `Int`.  Go strings are `String`; every string the password
generator touches is pure ASCII, so a byte index and a character index agree.
The process-wide random source of `math/rand` is an explicit state `Rand` that
is threaded through the code.  The network and the JSON decoder are outside
the program and are parameters (`Env`).
-/

namespace OtsSecretGenerator

/-! ## Data model -/

/-- The struct `ConfigurationFile` (main.go, lines 17-23). -/
structure ConfigurationFile where
  Endpoint : String
  Username : String
  APIKey : String
  SecretTTL : Int
  PasswordLength : Int

/-- The method `isInValid` (main.go, lines 26-28). -/
def ConfigurationFile.isInValid (ots : ConfigurationFile) : Bool :=
  ots.Endpoint == "" || ots.Username == "" || ots.APIKey == ""

/-! ## The random source

`math/rand` is library code.  Its state is modelled as an infinite stream of raw
values together with a read position; a bounded draw reduces the next raw value
modulo the bound.  Every sequence of in-range results that the library could
return is the result sequence of some stream, so a statement proved for all
`Rand` covers every behaviour of the library generator. -/

/-- State of the random source: a stream of raw values and the number of draws
made so far. -/
structure Rand where
  stream : Nat → Nat
  pos : Nat

/-- The call `rand.Intn(n)`: a value in `[0, n)` and the advanced source. -/
def Rand.Intn (r : Rand) (n : Nat) : Nat × Rand :=
  (r.stream r.pos % n, ⟨r.stream, r.pos + 1⟩)

/-! ## Password generation (main.go, lines 102-126) -/

def lowerCharSet : String := "abcdedfghijklmnopqrst"

def upperCharSet : String := "ABCDEFGHIJKLMNOPQRSTUVWXYZ"

def specialCharSet : String := "!@#$%&*"

def numberSet : String := "0123456789"

def allCharSet : String := lowerCharSet ++ upperCharSet ++ specialCharSet ++ numberSet

/-- The sampling loop of `generatePassword` (lines 117-120), with `n` iterations
left and `password` the characters written so far.  `allCharSet[random]` is
always in range; the fallback character NUL of `getD` is never produced. -/
def sampleLoop : Nat → Rand → List Char → List Char × Rand
  | 0, r, password => (password, r)
  | n + 1, r, password =>
    let random := r.Intn allCharSet.length
    sampleLoop n random.2 (password ++ [allCharSet.data.getD random.1 (Char.ofNat 0)])

/-- The closure handed to `rand.Shuffle` (line 123):
`inRune[i], inRune[j] = inRune[j], inRune[i]`. -/
def swapRunes (inRune : List Char) (i j : Nat) : List Char :=
  (inRune.set i (inRune.getD j (Char.ofNat 0))).set j (inRune.getD i (Char.ofNat 0))

/-- The loop of the library function `rand.Shuffle`:
`for ; i > 0; i-- { j := draw from [0, i+1); swap(i, j) }`.
(The library splits the loop in two at `i = 2^31 - 2` only to pick a 63-bit or
a 31-bit draw; both are bounded draws here.) -/
def shuffleLoop : Nat → Rand → List Char → List Char × Rand
  | 0, r, inRune => (inRune, r)
  | i + 1, r, inRune =>
    let j := r.Intn (i + 1 + 1)
    shuffleLoop i j.2 (swapRunes inRune (i + 1) j.1)

/-- The call `rand.Shuffle(len(inRune), swap)`: the loop starts at `i = n - 1`
(for `n = 0` the library starts at `-1` and the loop body never runs, as with
the truncated subtraction here). -/
def shuffle (r : Rand) (inRune : List Char) : List Char × Rand :=
  shuffleLoop (inRune.length - 1) r inRune

/-- The candidate string built by the sampling loop of `generatePassword`
(the value of `password.String()` on line 121) and the source after it. -/
def candidate (passwordLength : Int) (r : Rand) : List Char × Rand :=
  sampleLoop passwordLength.toNat r []

/-- The function `generatePassword` (lines 113-126): the returned string and
the random source after the call.  `for i := 0; i < passwordLength; i++` runs
`passwordLength.toNat` times. -/
def generatePassword (passwordLength : Int) (r : Rand) : String × Rand :=
  let password := candidate passwordLength r
  let inRune := shuffle password.2 password.1
  (String.mk inRune.1, inRune.2)

/-! ## The outside world: HTTP and JSON -/

/-- The conversion `string(n)` of a Go integer `n` (used on lines 47 and 67): the
string holding the single code point `n`, and U+FFFD when `n` is not a valid
Unicode code point (negative, a surrogate, or above U+10FFFF). -/
def stringOfInt (n : Int) : String :=
  if 0 ≤ n ∧ (n < 0xD800 ∨ (0xDFFF < n ∧ n < 0x110000)) then
    String.singleton (Char.ofNat n.toNat)
  else
    String.singleton (Char.ofNat 0xFFFD)

/-- A decoded JSON value, as `json.Unmarshal` stores it in an `interface{}`. -/
inductive JsonValue where
  | null
  | bool (b : Bool)
  | number (text : String)
  | string (s : String)
  | array (items : List JsonValue)
  | object (fields : List (String × JsonValue))

/-- An outgoing request: method, URL, the basic-auth pair and the query
parameters (`url.Values`, in the order they were added). -/
structure Request where
  method : String
  url : String
  basicAuth : Option (String × String)
  query : List (String × String)

/-- What an HTTP exchange gives back: a transport-level error, or a response
with its status code, the body returned by `ioutil.ReadAll` and the error of
that read, if any. -/
inductive Reply where
  | transportError (msg : String)
  | response (statusCode : Int) (body : String) (readError : Option String)

/-- The collaborators of the program that are not part of it. -/
structure Env where
  /-- Whether `http.NewRequest("POST", url, nil)` returns an error for `url`. -/
  newRequestFails : String → Bool
  /-- The parameters `req.URL.Query()` already finds in `url`. -/
  urlQuery : String → List (String × String)
  /-- The exchange `client.Do(req)` followed by `ioutil.ReadAll(resp.Body)`. -/
  clientDo : Request → Reply
  /-- The exchange `http.Get(url)` followed by `ioutil.ReadAll(resp.Body)`. -/
  httpGet : String → Reply
  /-- The map filled by `json.Unmarshal(body, &jsonResponse)`, as a lookup:
  `unmarshal body key` is `jsonResponse[key]`, `none` when the key is absent
  (also when decoding failed and the map stayed nil). -/
  unmarshal : String → String → Option JsonValue

/-- How one call of `makeSecrets` ends. -/
inductive Outcome where
  /-- The statement `ch <- line` on line 76. -/
  | sent (line : String)
  /-- The process is terminated: `log.Fatal` (status 1) or `os.Exit(2)`. -/
  | exit (code : Int)
  /-- A run-time fault: nil dereference or failed type assertion. -/
  | crash
  deriving DecidableEq

/-- One run of `makeSecrets`: the request handed to `client.Do` (if the run got
that far), how the run ended, and the random source afterwards. -/
structure SecretsRun where
  request : Option Request
  outcome : Outcome
  rand : Rand

/-- The method `makeSecrets` (main.go, lines 31-78). -/
def ConfigurationFile.makeSecrets (ots : ConfigurationFile) (env : Env) (r : Rand) :
    SecretsRun :=
  let url := ots.Endpoint ++ "/api/v1/share"
  if env.newRequestFails url then
    -- the error is only printed; `req` is nil and `req.SetBasicAuth` faults
    ⟨none, .crash, r⟩
  else
    let newPassword := generatePassword ots.PasswordLength r
    let q := env.urlQuery url ++
      [("secret", newPassword.1), ("ttl", stringOfInt ots.SecretTTL)]
    let req : Request := ⟨"POST", url, some (ots.Username, ots.APIKey), q⟩
    match env.clientDo req with
    | .transportError _ => ⟨some req, .exit 1, newPassword.2⟩
    | .response statusCode body _ =>
      -- a failed body read is only printed
      if statusCode ≠ 200 then
        ⟨some req, .exit 2, newPassword.2⟩
      else
        match env.unmarshal body "secret_key" with
        | some (.string secretKey) =>
          ⟨some req,
           .sent (newPassword.1 ++ " -> " ++ ots.Endpoint ++ "/secret/" ++ secretKey),
           newPassword.2⟩
        | _ => ⟨some req, .crash, newPassword.2⟩

/-- The function `endpointReachable` (main.go, lines 81-100). -/
def endpointReachable (ots : ConfigurationFile) (env : Env) : Bool :=
  match env.httpGet (ots.Endpoint ++ "/api/v1/status") with
  | .transportError _ => false
  | .response _ _ (some _) => false
  | .response _ _ none => true

/-! ## Dispatch and `main` (main.go, lines 157-198)

Each goroutine `go ots.makeSecrets(ch)` is a task, numbered in start order.
Task `i` sees its own collaborators `taskEnv i` and its own share `taskRand i`
of the random source.  The order in which tasks complete is chosen by a
scheduler: a stream of numbers, the head of which selects, at each receive of
the main goroutine, one of the tasks still pending. -/

/-- How the process ends. -/
inductive Status where
  /-- The function `main` returns: exit status 0. -/
  | finished
  /-- The process is terminated with the given exit status. -/
  | exit (code : Int)
  /-- A run-time fault in a goroutine. -/
  | crash
  /-- The main goroutine waits on the channel with no task left to send. -/
  | deadlock
  deriving DecidableEq

/-- The receive loop (lines 186-188) with `n` iterations left: `pending` are the
started tasks that have not completed, `printed` the lines received and printed
so far.  The task that completes next is `pending[sched 0 % pending.length]`;
a completing task that does not send ends the process. -/
def drainLoop (outcome : Nat → Outcome) :
    Nat → (Nat → Nat) → List Nat → List String → List String × Status
  | 0, _, _, printed => (printed, .finished)
  | _ + 1, _, [], printed => (printed, .deadlock)
  | n + 1, sched, t :: ts, printed =>
    let k := sched 0 % (t :: ts).length
    match outcome ((t :: ts).getD k 0) with
    | .sent line =>
      drainLoop outcome n (fun i => sched (i + 1)) ((t :: ts).eraseIdx k) (printed ++ [line])
    | .exit code => (printed, .exit code)
    | .crash => (printed, .crash)

/-- The result of the dispatch section: the tasks started, the lines drained
from the channel (in the order received) and how the section ended. -/
structure DispatchRun where
  started : List Nat
  drained : List String
  status : Status

/-- The dispatch section of `main` (lines 176-190): the start loop runs
`numberOfPasswords.toNat` times, then the receive loop runs as many times. -/
def dispatch (ots : ConfigurationFile) (numberOfPasswords : Int)
    (taskEnv : Nat → Env) (taskRand : Nat → Rand) (sched : Nat → Nat) : DispatchRun :=
  let started := List.range numberOfPasswords.toNat
  let received := drainLoop (fun i => (ots.makeSecrets (taskEnv i) (taskRand i)).outcome)
    numberOfPasswords.toNat sched started []
  ⟨started, received.1, received.2⟩

/-- One run of `main`: whether `rand.Seed` was called (line 171, the entry of the
dispatch section), the tasks started, the result lines printed, the end. -/
structure MainRun where
  seeded : Bool
  started : List Nat
  printed : List String
  status : Status

/-- The function `main` from line 157 on, for a decoded configuration `ots` and
the parsed flag `numberOfPasswords`; `env` serves the health check. -/
def main (ots : ConfigurationFile) (numberOfPasswords : Int) (env : Env)
    (taskEnv : Nat → Env) (taskRand : Nat → Rand) (sched : Nat → Nat) : MainRun :=
  if ots.isInValid then
    ⟨false, [], [], .exit 2⟩
  else if numberOfPasswords > 150 then
    ⟨false, [], [], .exit 2⟩
  else if endpointReachable ots env then
    let run := dispatch ots numberOfPasswords taskEnv taskRand sched
    ⟨true, run.started, run.drained, run.status⟩
  else
    ⟨false, [], [], .exit 2⟩

/-! ## Properties named by the specification -/

/-- The configuration invariant of the specification: all string fields
non-empty, password length and time-to-live strictly positive. -/
def configInvariant (ots : ConfigurationFile) : Prop :=
  ots.Endpoint ≠ "" ∧ ots.Username ≠ "" ∧ ots.APIKey ≠ "" ∧
    0 < ots.PasswordLength ∧ 0 < ots.SecretTTL

/-- The decimal string representation of an integer. -/
def decimalString (n : Int) : String := toString n

/-- The value of the first parameter named `key` in a query. -/
def queryValue (query : List (String × String)) (key : String) : Option String :=
  (query.find? (fun p => p.1 == key)).map Prod.snd

/-- The configuration of the scenario in the specification. -/
def scenarioConfig : ConfigurationFile := ⟨"http://svc", "u", "k", 3600, 12⟩

/-- A service that accepts every request and answers 200 with the body
`{"secret_key": "abc123"}`. -/
def scenarioEnv : Env :=
  ⟨fun _ => false, fun _ => [], fun _ => .response 200 "\x7b\"secret_key\": \"abc123\"\x7d" none,
   fun _ => .response 200 "ok" none,
   fun _ key => if key = "secret_key" then some (.string "abc123") else none⟩

/-- A random source whose raw values are 0, 1, 2, … -/
def countingRand : Rand := ⟨fun i => i, 0⟩

/-! ## Lemmas on the password generator -/

theorem allCharSet_length : allCharSet.length = 64 := by decide

theorem allCharSet_data_length : allCharSet.data.length = 64 := by decide

theorem sampleLoop_length (n : Nat) (r : Rand) (password : List Char) :
    (sampleLoop n r password).1.length = password.length + n := by
  induction n generalizing r password with
  | zero => simp [sampleLoop]
  | succ n ih => simp [sampleLoop, ih]; omega

theorem getD_allCharSet_mem (k : Nat) (hk : k < 64) :
    allCharSet.data.getD k (Char.ofNat 0) ∈ allCharSet.data := by
  have h : k < allCharSet.data.length := by
    rw [allCharSet_data_length]; exact hk
  rw [List.getD_eq_getElem _ _ h]
  exact List.getElem_mem h

theorem sampleLoop_mem (n : Nat) (r : Rand) (password : List Char)
    (hp : ∀ c ∈ password, c ∈ allCharSet.data) :
    ∀ c ∈ (sampleLoop n r password).1, c ∈ allCharSet.data := by
  induction n generalizing r password with
  | zero => simpa [sampleLoop] using hp
  | succ n ih =>
    simp only [sampleLoop]
    apply ih
    intro c hc
    rcases List.mem_append.1 hc with h | h
    · exact hp c h
    · have hc' : c = allCharSet.data.getD (r.Intn allCharSet.length).1 (Char.ofNat 0) := by
        simpa using h
      rw [hc']
      apply getD_allCharSet_mem
      simp only [Rand.Intn, allCharSet_length]
      exact Nat.mod_lt _ (by decide)

theorem swapRunes_length (l : List Char) (i j : Nat) : (swapRunes l i j).length = l.length := by
  simp [swapRunes]

theorem swapRunes_perm (l : List Char) (i j : Nat) (hi : i < l.length) (hj : j < l.length) :
    (swapRunes l i j).Perm l := by
  rw [List.perm_iff_count]
  intro c
  unfold swapRunes
  rw [List.getD_eq_getElem _ _ hi, List.getD_eq_getElem _ _ hj]
  rw [List.count_set _ _ _ _ (by simpa using hj), List.count_set _ _ _ _ hi]
  have h1 : (if l[i] == c then 1 else 0) ≤ l.count c := by
    split
    · rename_i h
      have : l[i] = c := by simpa using h
      exact List.count_pos_iff.2 (this ▸ List.getElem_mem hi)
    · omega
  have h2 : (if l[j] == c then 1 else 0) ≤ l.count c := by
    split
    · rename_i h
      have : l[j] = c := by simpa using h
      exact List.count_pos_iff.2 (this ▸ List.getElem_mem hj)
    · omega
  by_cases hij : i = j
  · subst hij
    simp only [List.getElem_set_self]
    omega
  · rw [List.getElem_set_ne hij]
    omega

theorem shuffleLoop_perm (i : Nat) (r : Rand) (l : List Char) (hi : i < l.length) :
    (shuffleLoop i r l).1.Perm l := by
  induction i generalizing r l with
  | zero => simp [shuffleLoop]
  | succ i ih =>
    simp only [shuffleLoop]
    have hj : (r.Intn (i + 1 + 1)).1 < l.length := by
      have : (r.Intn (i + 1 + 1)).1 < i + 1 + 1 := Nat.mod_lt _ (by omega)
      omega
    refine (ih _ _ ?_).trans (swapRunes_perm l _ _ hi hj)
    rw [swapRunes_length]; omega

theorem shuffle_perm (r : Rand) (l : List Char) : (shuffle r l).1.Perm l := by
  unfold shuffle
  cases l with
  | nil => simp [shuffleLoop]
  | cons a t => exact shuffleLoop_perm _ _ _ (by simp)

theorem candidate_length (L : Int) (r : Rand) : (candidate L r).1.length = L.toNat := by
  simp [candidate, sampleLoop_length]

theorem generatePassword_data (L : Int) (r : Rand) :
    (generatePassword L r).1.data = (shuffle (candidate L r).2 (candidate L r).1).1 := rfl

/-! ## Lemmas on the receive loop -/

theorem getD_cons_eraseIdx_perm (l : List Nat) (k : Nat) (hk : k < l.length) :
    (l.getD k 0 :: l.eraseIdx k).Perm l := by
  induction l generalizing k with
  | nil => simp at hk
  | cons a t ih =>
    cases k with
    | zero => simp
    | succ k =>
      have hk' : k < t.length := by simpa using hk
      have h := ih k hk'
      simp only [List.getD_cons_succ, List.eraseIdx_cons_succ]
      exact (List.Perm.swap a (t.getD k 0) (t.eraseIdx k)).trans (h.cons a)

theorem drainLoop_all_sent (outcome : Nat → Outcome) (lines : Nat → String) (n : Nat) :
    ∀ (sched : Nat → Nat) (pending : List Nat) (printed : List String),
      pending.length = n → (∀ t ∈ pending, outcome t = .sent (lines t)) →
      ∃ rest : List String, rest.Perm (pending.map lines) ∧
        drainLoop outcome n sched pending printed = (printed ++ rest, .finished) := by
  induction n with
  | zero =>
    intro sched pending printed hlen _
    have hnil : pending = [] := List.length_eq_zero.1 hlen
    subst hnil
    exact ⟨[], by simp, by simp [drainLoop]⟩
  | succ n ih =>
    intro sched pending printed hlen hok
    cases pending with
    | nil => simp at hlen
    | cons t ts =>
      have hk : sched 0 % (t :: ts).length < (t :: ts).length := Nat.mod_lt _ (by simp)
      have hmem : (t :: ts).getD (sched 0 % (t :: ts).length) 0 ∈ t :: ts := by
        rw [List.getD_eq_getElem _ _ hk]
        exact List.getElem_mem hk
      have hlen' : ((t :: ts).eraseIdx (sched 0 % (t :: ts).length)).length = n := by
        rw [List.length_eraseIdx, if_pos hk, hlen]
        rfl
      have hok' : ∀ u ∈ (t :: ts).eraseIdx (sched 0 % (t :: ts).length),
          outcome u = .sent (lines u) :=
        fun u hu => hok u ((List.eraseIdx_sublist _ _).subset hu)
      obtain ⟨rest, hperm, hrun⟩ := ih (fun i => sched (i + 1)) _
        (printed ++ [lines ((t :: ts).getD (sched 0 % (t :: ts).length) 0)]) hlen' hok'
      refine ⟨lines ((t :: ts).getD (sched 0 % (t :: ts).length) 0) :: rest, ?_, ?_⟩
      · have hsplit : ((t :: ts).getD (sched 0 % (t :: ts).length) 0 ::
            (t :: ts).eraseIdx (sched 0 % (t :: ts).length)).Perm (t :: ts) :=
          getD_cons_eraseIdx_perm _ _ hk
        exact (List.Perm.cons _ hperm).trans (by simpa using hsplit.map lines)
      · simp only [drainLoop, hok _ hmem]
        rw [hrun]
        simp

/-- Every completion order can occur: for each arrangement `order` of the pending
tasks there is a scheduler under which the receive loop prints the lines in
exactly that order. -/
theorem drainLoop_every_order (outcome : Nat → Outcome) (lines : Nat → String)
    (order : List Nat) :
    ∀ (pending : List Nat) (printed : List String),
      order.Perm pending → (∀ t ∈ pending, outcome t = .sent (lines t)) →
      ∃ sched : Nat → Nat,
        drainLoop outcome order.length sched pending printed =
          (printed ++ order.map lines, .finished) := by
  induction order with
  | nil =>
    intro pending printed _ _
    exact ⟨fun _ => 0, by simp [drainLoop]⟩
  | cons t rest ih =>
    intro pending printed hperm hok
    have hmem : t ∈ pending := hperm.subset (List.mem_cons_self t rest)
    have hk : pending.indexOf t < pending.length := List.indexOf_lt_length.2 hmem
    have hrest : rest.Perm (pending.eraseIdx (pending.indexOf t)) := by
      rw [List.eraseIdx_indexOf_eq_erase]
      simpa using hperm.erase t
    have hok' : ∀ u ∈ pending.eraseIdx (pending.indexOf t), outcome u = .sent (lines u) :=
      fun u hu => hok u ((List.eraseIdx_sublist _ _).subset hu)
    obtain ⟨sched', hrun⟩ := ih _ (printed ++ [lines t]) hrest hok'
    refine ⟨fun i => match i with
      | 0 => pending.indexOf t
      | j + 1 => sched' j, ?_⟩
    cases pending with
    | nil => simp at hmem
    | cons a as =>
      have hget : (a :: as).getD ((a :: as).indexOf t) 0 = t := by
        rw [List.getD_eq_getElem _ _ hk]
        exact List.getElem_indexOf hk
      simp only [List.length_cons, drainLoop]
      rw [Nat.mod_eq_of_lt (by simpa using hk), hget, hok t hmem]
      simp only []
      rw [hrun]
      simp

/-! ## Lemmas on the conversion `string(n)` -/

/-- Every character of the alphabet is ASCII: one byte, one rune. -/
theorem allCharSet_ascii : ∀ c ∈ allCharSet.data, c.toNat < 128 := by decide

theorem toDigits_length_ge_two (m : Nat) (hm : 10 ≤ m) : 2 ≤ (Nat.toDigits 10 m).length := by
  unfold Nat.toDigits
  obtain ⟨k, rfl⟩ : ∃ k, m = k + 1 := ⟨m - 1, by omega⟩
  have h1 : (k + 1) / 10 ≠ 0 := by omega
  rw [Nat.toDigitsCore]
  simp only [h1, if_false]
  rw [Nat.toDigitsCore_lens_eq]
  rw [Nat.toDigitsCore]
  split
  · simp
  · rw [Nat.toDigitsCore_lens_eq]; omega

theorem stringOfInt_length (n : Int) : (stringOfInt n).length = 1 := by
  unfold stringOfInt
  split <;> rfl

/-- The conversion `string(n)` never yields the decimal representation of `n`. -/
theorem stringOfInt_ne_decimalString (n : Int) : stringOfInt n ≠ decimalString n := by
  intro h
  have hlen : (decimalString n).length = 1 := by rw [← h]; exact stringOfInt_length n
  cases n with
  | ofNat m =>
    have hrepr : decimalString (Int.ofNat m) = Nat.repr m := rfl
    by_cases hm : m < 10
    · interval_cases m <;> revert h <;> decide
    · rw [hrepr] at hlen
      have h2 := toDigits_length_ge_two m (by omega)
      have h3 : (Nat.repr m).length = (Nat.toDigits 10 m).length := rfl
      omega
  | negSucc m =>
    have hrepr : decimalString (Int.negSucc m) = "-" ++ Nat.repr (m + 1) := rfl
    have hs : stringOfInt (Int.negSucc m) = String.singleton (Char.ofNat 0xFFFD) := by
      unfold stringOfInt
      rw [if_neg]
      intro hc
      exact absurd hc.1 (by simp [Int.negSucc_lt_zero])
    rw [hrepr, hs] at h
    have hd := congrArg String.data h
    rw [String.data_append] at hd
    simp [String.singleton] at hd

/-- Whatever the configuration, a request that `makeSecrets` hands to the client
carries the pair `ttl = string(SecretTTL)` as its last query parameter. -/
theorem makeSecrets_request_query (ots : ConfigurationFile) (env : Env) (r : Rand)
    (req : Request) (hreq : (ots.makeSecrets env r).request = some req) :
    req.query = env.urlQuery (ots.Endpoint ++ "/api/v1/share") ++
      [("secret", (generatePassword ots.PasswordLength r).1),
       ("ttl", stringOfInt ots.SecretTTL)] := by
  unfold ConfigurationFile.makeSecrets at hreq
  by_cases hnew : env.newRequestFails (ots.Endpoint ++ "/api/v1/share") = true
  · simp [hnew] at hreq
  · simp only [hnew, Bool.false_eq_true, if_false] at hreq
    split at hreq
    · simp at hreq; rw [← hreq]
    · split at hreq
      · simp at hreq; rw [← hreq]
      · split at hreq <;> (simp at hreq; rw [← hreq])

/-! ## The claims -/

/-- C1. For every length `L ≥ 1` and every state of the random source,
`generatePassword L` returns a string of exactly `L` characters, each of which
is a member of `allCharSet`. -/
theorem generatePassword_length_and_alphabet (L : Int) (r : Rand) (hL : 1 ≤ L) :
    ((generatePassword L r).1.length : Int) = L ∧
      ∀ c ∈ (generatePassword L r).1.data, c ∈ allCharSet.data := by
  have hperm := shuffle_perm (candidate L r).2 (candidate L r).1
  constructor
  · show (((generatePassword L r).1.data.length : Nat) : Int) = L
    rw [generatePassword_data, hperm.length_eq, candidate_length]
    omega
  · intro c hc
    rw [generatePassword_data] at hc
    exact sampleLoop_mem _ _ [] (by simp) c (hperm.subset hc)

/-- Witness for C1: a 12-character password from the counting source. -/
theorem generatePassword_length_and_alphabet_witness :
    ((generatePassword 12 countingRand).1.length : Int) = 12 ∧
      ∀ c ∈ (generatePassword 12 countingRand).1.data, c ∈ allCharSet.data :=
  generatePassword_length_and_alphabet 12 countingRand (by decide)

/-- C2 (code defect). For the scenario configuration, `SecretTTL = 3600`, the
`ttl` parameter that `makeSecrets` attaches is the one-character string holding
the code point U+0E10, not the decimal string `"3600"`: line 47 converts with
`string(ots.SecretTTL)`. -/
theorem makeSecrets_ttl_is_code_point :
    ((scenarioConfig.makeSecrets scenarioEnv countingRand).request.bind
        (fun req => queryValue req.query "ttl")) = some (String.singleton (Char.ofNat 3600)) ∧
      String.singleton (Char.ofNat 3600) ≠ decimalString scenarioConfig.SecretTTL ∧
      decimalString scenarioConfig.SecretTTL = "3600" := by
  decide

/-- C3. For every configuration, whenever the request was sent and answered by
an HTTP 200 reply whose decoded body has the string field `secret_key = k`, the
value sent on the channel is `<password> -> <endpoint>/secret/<k>`, where
`<password>` is the generated password attached to the same request as the
`secret` query parameter. -/
theorem makeSecrets_sends_result (ots : ConfigurationFile) (env : Env) (r : Rand)
    (req : Request) (body : String) (readError : Option String) (k : String)
    (hreq : (ots.makeSecrets env r).request = some req)
    (hreply : env.clientDo req = .response 200 body readError)
    (hkey : env.unmarshal body "secret_key" = some (.string k)) :
    (ots.makeSecrets env r).outcome =
        .sent ((generatePassword ots.PasswordLength r).1 ++ " -> " ++ ots.Endpoint ++
          "/secret/" ++ k) ∧
      ("secret", (generatePassword ots.PasswordLength r).1) ∈ req.query := by
  unfold ConfigurationFile.makeSecrets at hreq ⊢
  by_cases hnew : env.newRequestFails (ots.Endpoint ++ "/api/v1/share") = true
  · simp [hnew] at hreq
  · simp only [hnew, Bool.false_eq_true, if_false] at hreq ⊢
    have hreq' : req = ⟨"POST", ots.Endpoint ++ "/api/v1/share",
        some (ots.Username, ots.APIKey),
        env.urlQuery (ots.Endpoint ++ "/api/v1/share") ++
          [("secret", (generatePassword ots.PasswordLength r).1),
           ("ttl", stringOfInt ots.SecretTTL)]⟩ := by
      split at hreq
      · simpa using hreq.symm
      · split at hreq
        · simpa using hreq.symm
        · split at hreq <;> simpa using hreq.symm
    subst hreq'
    rw [hreply]
    simp [hkey]

/-- Witness for C3: the scenario of the specification. -/
theorem makeSecrets_sends_result_witness :
    (scenarioConfig.makeSecrets scenarioEnv countingRand).outcome =
        .sent ((generatePassword scenarioConfig.PasswordLength countingRand).1 ++ " -> " ++
          scenarioConfig.Endpoint ++ "/secret/" ++ "abc123") ∧
      ("secret", (generatePassword scenarioConfig.PasswordLength countingRand).1) ∈
        (⟨"POST", "http://svc/api/v1/share", some ("u", "k"),
          [("secret", (generatePassword 12 countingRand).1),
           ("ttl", stringOfInt 3600)]⟩ : Request).query :=
  makeSecrets_sends_result scenarioConfig scenarioEnv countingRand
    ⟨"POST", "http://svc/api/v1/share", some ("u", "k"),
      [("secret", (generatePassword 12 countingRand).1), ("ttl", stringOfInt 3600)]⟩
    "\x7b\"secret_key\": \"abc123\"\x7d" none "abc123" rfl rfl rfl

/-- C4. For every count `≥ 0` and every scheduler (every completion order), when
every submission succeeds, task `i` sending `lines i`, the dispatch section
starts exactly `count` tasks, the tasks `0 … count - 1`, and drains exactly
`count` results, one per task (the drained lines are a rearrangement of the
tasks' lines), before it finishes; for `count = 0` it starts no task and drains
nothing. -/
theorem dispatch_drains_one_result_per_task (ots : ConfigurationFile) (count : Int)
    (taskEnv : Nat → Env) (taskRand : Nat → Rand) (sched : Nat → Nat) (lines : Nat → String)
    (hcount : 0 ≤ count)
    (hok : ∀ i : Nat, (i : Int) < count →
      (ots.makeSecrets (taskEnv i) (taskRand i)).outcome = .sent (lines i)) :
    ((dispatch ots count taskEnv taskRand sched).started.length : Int) = count ∧
      (dispatch ots count taskEnv taskRand sched).started = List.range count.toNat ∧
      ((dispatch ots count taskEnv taskRand sched).drained.length : Int) = count ∧
      (dispatch ots count taskEnv taskRand sched).drained.Perm
        ((dispatch ots count taskEnv taskRand sched).started.map lines) ∧
      (dispatch ots count taskEnv taskRand sched).status = .finished ∧
      (count = 0 → (dispatch ots count taskEnv taskRand sched).started = [] ∧
        (dispatch ots count taskEnv taskRand sched).drained = []) := by
  have hall : ∀ t ∈ List.range count.toNat,
      (fun i => (ots.makeSecrets (taskEnv i) (taskRand i)).outcome) t = .sent (lines t) := by
    intro t ht
    have : t < count.toNat := List.mem_range.1 ht
    exact hok t (by omega)
  obtain ⟨rest, hperm, hrun⟩ := drainLoop_all_sent
    (fun i => (ots.makeSecrets (taskEnv i) (taskRand i)).outcome) lines count.toNat sched
    (List.range count.toNat) [] (List.length_range _) hall
  have hd : (dispatch ots count taskEnv taskRand sched).drained = rest := by
    simp [dispatch, hrun]
  have hs : (dispatch ots count taskEnv taskRand sched).status = .finished := by
    simp [dispatch, hrun]
  have hst : (dispatch ots count taskEnv taskRand sched).started = List.range count.toNat := rfl
  have hlen : rest.length = count.toNat := by
    rw [hperm.length_eq]; simp
  refine ⟨?_, hst, ?_, ?_, hs, ?_⟩
  · rw [hst, List.length_range]; omega
  · rw [hd, hlen]; omega
  · rw [hd, hst]; exact hperm
  · intro h0
    subst h0
    refine ⟨by simp [hst], ?_⟩
    rw [hd]
    exact List.length_eq_zero.1 (by simpa using hlen)

/-- Witness for C4: three tasks against the scenario service, completing in the
order 1, 0, 2. -/
theorem dispatch_drains_one_result_per_task_witness :
    ((dispatch scenarioConfig 3 (fun _ => scenarioEnv) (fun _ => countingRand)
        (fun i => i + 1)).started.length : Int) = 3 ∧
      (dispatch scenarioConfig 3 (fun _ => scenarioEnv) (fun _ => countingRand)
        (fun i => i + 1)).started = List.range (3 : Int).toNat ∧
      ((dispatch scenarioConfig 3 (fun _ => scenarioEnv) (fun _ => countingRand)
        (fun i => i + 1)).drained.length : Int) = 3 ∧
      (dispatch scenarioConfig 3 (fun _ => scenarioEnv) (fun _ => countingRand)
        (fun i => i + 1)).drained.Perm
        ((dispatch scenarioConfig 3 (fun _ => scenarioEnv) (fun _ => countingRand)
          (fun i => i + 1)).started.map
            (fun _ => "bjhdigdkfeca -> http://svc/secret/abc123")) ∧
      (dispatch scenarioConfig 3 (fun _ => scenarioEnv) (fun _ => countingRand)
        (fun i => i + 1)).status = .finished ∧
      ((3 : Int) = 0 → (dispatch scenarioConfig 3 (fun _ => scenarioEnv) (fun _ => countingRand)
        (fun i => i + 1)).started = [] ∧
        (dispatch scenarioConfig 3 (fun _ => scenarioEnv) (fun _ => countingRand)
          (fun i => i + 1)).drained = []) :=
  dispatch_drains_one_result_per_task scenarioConfig 3 (fun _ => scenarioEnv)
    (fun _ => countingRand) (fun i => i + 1)
    (fun _ => "bjhdigdkfeca -> http://svc/secret/abc123") (by decide)
    (fun _ _ => by
      show (scenarioConfig.makeSecrets scenarioEnv countingRand).outcome =
        .sent "bjhdigdkfeca -> http://svc/secret/abc123"
      decide)

/-- C5 (as stated, refuted). The configuration with non-empty strings and
`SecretTTL = 0`, `PasswordLength = 0` passes validation and does not satisfy the
configuration invariant. -/
theorem isInValid_does_not_check_numbers :
    (ConfigurationFile.mk "http://svc" "u" "k" 0 0).isInValid = false ∧
      ¬ configInvariant (ConfigurationFile.mk "http://svc" "u" "k" 0 0) := by
  refine ⟨by decide, ?_⟩
  intro h
  exact absurd h.2.2.2.1 (by decide)

/-- C5 (amended). A configuration passes validation exactly when `Endpoint`,
`Username` and `APIKey` are all non-empty; `PasswordLength` and `SecretTTL` are
not examined. -/
theorem isInValid_false_iff (ots : ConfigurationFile) :
    ots.isInValid = false ↔ ots.Endpoint ≠ "" ∧ ots.Username ≠ "" ∧ ots.APIKey ≠ "" := by
  simp [ConfigurationFile.isInValid, and_assoc]

/-- C6. For every decoded configuration, count and health-check outcome, `main`
enters the dispatch section if and only if the configuration is valid, the
count is at most 150 and the health check reported reachable.  When it does,
the run of `main` is the run of the dispatch section on the same inputs: it
starts the tasks `0 … numberOfPasswords - 1`, prints the lines that section
drains and ends as that section ends.  In each of the other cases (invalid
configuration, count above 150, unreachable service) the process ends with exit
status 2, the dispatch section is not entered, no task is started and no result
is printed. -/
theorem main_dispatches_iff (ots : ConfigurationFile) (numberOfPasswords : Int) (env : Env)
    (taskEnv : Nat → Env) (taskRand : Nat → Rand) (sched : Nat → Nat) :
    ((main ots numberOfPasswords env taskEnv taskRand sched).seeded = true ↔
        (ots.isInValid = false ∧ numberOfPasswords ≤ 150 ∧ endpointReachable ots env = true)) ∧
      ((ots.isInValid = false ∧ numberOfPasswords ≤ 150 ∧ endpointReachable ots env = true) →
        (main ots numberOfPasswords env taskEnv taskRand sched).seeded = true ∧
        (main ots numberOfPasswords env taskEnv taskRand sched).started =
          List.range numberOfPasswords.toNat ∧
        (main ots numberOfPasswords env taskEnv taskRand sched).started =
          (dispatch ots numberOfPasswords taskEnv taskRand sched).started ∧
        (main ots numberOfPasswords env taskEnv taskRand sched).printed =
          (dispatch ots numberOfPasswords taskEnv taskRand sched).drained ∧
        (main ots numberOfPasswords env taskEnv taskRand sched).status =
          (dispatch ots numberOfPasswords taskEnv taskRand sched).status) ∧
      ((ots.isInValid = true ∨ 150 < numberOfPasswords ∨ endpointReachable ots env = false) →
        (main ots numberOfPasswords env taskEnv taskRand sched).seeded = false ∧
        (main ots numberOfPasswords env taskEnv taskRand sched).status = .exit 2 ∧
        (main ots numberOfPasswords env taskEnv taskRand sched).started = [] ∧
        (main ots numberOfPasswords env taskEnv taskRand sched).printed = []) ∧
      ((main ots numberOfPasswords env taskEnv taskRand sched).seeded = false →
        (main ots numberOfPasswords env taskEnv taskRand sched).status = .exit 2 ∧
        (main ots numberOfPasswords env taskEnv taskRand sched).started = [] ∧
        (main ots numberOfPasswords env taskEnv taskRand sched).printed = []) := by
  have hstarted : (dispatch ots numberOfPasswords taskEnv taskRand sched).started =
      List.range numberOfPasswords.toNat := rfl
  unfold main
  by_cases h1 : ots.isInValid = true
  · simp [h1]
  · by_cases h2 : numberOfPasswords > 150
    · simp [h1, h2]
    · by_cases h3 : endpointReachable ots env = true
      · have h2' : numberOfPasswords ≤ 150 := by omega
        have h2'' : ¬ 150 < numberOfPasswords := h2
        simp [h1, h2, h2', h2'', h3, hstarted]
      · have h2'' : ¬ 150 < numberOfPasswords := h2
        simp [h1, h2, h2'', h3]

/-- C7 (code defect). `allCharSet` is the concatenation of the four classes and
holds every uppercase letter and every digit exactly once, but `lowerCharSet`
is `"abcdedfghijklmnopqrst"`: the letters `u` … `z` are absent from the
alphabet and `d` occurs twice. -/
theorem allCharSet_lowercase_defect :
    allCharSet = lowerCharSet ++ upperCharSet ++ specialCharSet ++ numberSet ∧
      (∀ c ∈ ['u', 'v', 'w', 'x', 'y', 'z'], c ∉ allCharSet.data) ∧
      allCharSet.data.count 'd' = 2 ∧
      (∀ c ∈ upperCharSet.data ++ numberSet.data, allCharSet.data.count c = 1) := by
  refine ⟨rfl, by decide, by decide, by decide⟩

/-- C8. For every length and every state of the random source, the string
`generatePassword` returns is a permutation of the candidate string built by
the sampling loop, and has the same length. -/
theorem generatePassword_perm_candidate (L : Int) (r : Rand) :
    (generatePassword L r).1.data.Perm (candidate L r).1 ∧
      (generatePassword L r).1.length = (candidate L r).1.length := by
  have hperm := shuffle_perm (candidate L r).2 (candidate L r).1
  exact ⟨hperm, hperm.length_eq⟩

/-- C9. For every length `L ≤ 0` and every state of the random source,
`generatePassword L` returns the empty string (there is no error result) and
leaves the random source as it was: no draw is made. -/
theorem generatePassword_nonpositive (L : Int) (r : Rand) (hL : L ≤ 0) :
    generatePassword L r = ("", r) := by
  have h0 : L.toNat = 0 := by omega
  simp [generatePassword, candidate, h0, sampleLoop, shuffle, shuffleLoop]

/-- Witness for C9: length `-3`. -/
theorem generatePassword_nonpositive_witness :
    generatePassword (-3) countingRand = ("", countingRand) :=
  generatePassword_nonpositive (-3) countingRand (by decide)

/-- C10. `endpointReachable` returns true if and only if the status request
got a response (no transport error) whose body was read without error; the
status code plays no part, so a readable reply with status 500 counts as
reachable. -/
theorem endpointReachable_iff (ots : ConfigurationFile) (env : Env) :
    (endpointReachable ots env = true ↔
        ∃ statusCode body,
          env.httpGet (ots.Endpoint ++ "/api/v1/status") = .response statusCode body none) ∧
      (∀ body, env.httpGet (ots.Endpoint ++ "/api/v1/status") = .response 500 body none →
        endpointReachable ots env = true) := by
  unfold endpointReachable
  constructor
  · constructor
    · intro h
      split at h
      · simp at h
      · simp at h
      · rename_i statusCode body heq
        exact ⟨statusCode, body, heq⟩
    · rintro ⟨statusCode, body, heq⟩
      simp [heq]
  · intro body heq
    simp [heq]

end OtsSecretGenerator
